import Mathlib

/-!
Verification of the pylontech battery monitor (`monitor.py`) against its
specification.  The development shallowly embeds the two cores of the
program — the framed command/response protocol engine
(`network_command`, monitor.py lines 25-75) and the fixed-width tabular
telemetry parser (`get_power`, monitor.py lines 126-170) — as executable
Lean functions, and proves the specification's claims about them.

Modelling conventions:
* Python `str` and `bytes` are both modelled as `List Char`; all protocol
  constants are ASCII and every accepted payload is required by the spec
  to decode as text, so `bytes.decode()` is the identity in the model.
* Fallible Python operations (indexing, dict lookup, `int()` conversion)
  are modelled with `Except`/`Option`; an uncaught Python exception is an
  `Except.error`.
* `int()` is modelled on optionally signed decimal digit strings with
  surrounding whitespace (numeric-literal underscores are not modelled;
  no input in this development contains them).
-/

deriving instance DecidableEq for Except

namespace Pylontech

abbrev Str := List Char

/-- The Python whitespace set stripped by `bytes.rstrip` / `str.strip`
(ASCII fragment, the only one that can occur on this wire). -/
def isPyWs (c : Char) : Bool :=
  c = ' ' || c = '\t' || c = '\n' || c = '\r' || c = '\x0b' || c = '\x0c'

/-- Python `s.rstrip()`. -/
def pyRstrip (l : Str) : Str := (l.reverse.dropWhile isPyWs).reverse

/-- Python `s.lstrip()`. -/
def pyLstrip (l : Str) : Str := l.dropWhile isPyWs

/-- Python `s.strip()`. -/
def pyStrip (l : Str) : Str := pyLstrip (pyRstrip l)

/-- Python `s.split("\n")` (monitor.py line 132): every segment between
newlines, empties included, `n` separators giving `n+1` segments. -/
def pySplitLines : Str → List Str
  | [] => [[]]
  | c :: rest =>
    match pySplitLines rest with
    | [] => [[c]]
    | l :: ls => if c = '\n' then [] :: l :: ls else (c :: l) :: ls

/-- Python `l[i]` with negative-index support; `Except.error` is an
`IndexError`. -/
def pyIndex (l : Str) (i : Int) : Except Unit Char :=
  let j : Int := if i < 0 then i + l.length else i
  if h : 0 ≤ j ∧ j < l.length then
    .ok (l.get ⟨j.toNat, by omega⟩)
  else
    .error ()

/-- Python `l[i]` for a list with non-negative index (`colstart[cellno]`);
`Except.error` is an `IndexError`. -/
def pyNth (l : List α) (i : Nat) : Except Unit α :=
  match l.get? i with
  | some x => .ok x
  | none => .error ()

/-- Python slice `l[a:b]` with full negative-bound semantics. -/
def pySlice (l : Str) (a b : Int) : Str :=
  let n : Int := l.length
  let a' : Int := if a < 0 then max 0 (n + a) else min a n
  let b' : Int := if b < 0 then max 0 (n + b) else min b n
  (l.take b'.toNat).drop a'.toNat

/-- State of the scan for `re.findall(r"([^ ]+ +)", header)` (monitor.py
line 135): lengths of emitted matches, length of the current nonspace
run, length of the current space run following it. -/
structure ColScan where
  acc : List Nat
  tok : Nat
  sp : Nat
deriving DecidableEq, Repr

def colStep (st : ColScan) (c : Char) : ColScan :=
  if c = ' ' then
    if st.tok = 0 then st else ⟨st.acc, st.tok, st.sp + 1⟩
  else
    if st.sp = 0 then ⟨st.acc, st.tok + 1, 0⟩
    else ⟨st.acc ++ [st.tok + st.sp], 1, 0⟩

/-- The lengths of the matches of `re.findall(r"([^ ]+ +)", l)` in order:
each maximal nonspace run together with the (nonempty) space run that
follows it; a final token not followed by a space does not match, and
skipped leading spaces contribute no length. -/
def colMatches (l : Str) : List Nat :=
  let st := l.foldl colStep ⟨[], 0, 0⟩
  if st.tok ≠ 0 ∧ st.sp ≠ 0 then st.acc ++ [st.tok + st.sp] else st.acc

/-- `colstart = [0]; for m in matches: colstart.append(colstart[-1] + len(m))`
(monitor.py lines 134-136): cumulative sums with initial value. -/
def cumsum : Nat → List Nat → List Nat
  | a, [] => [a]
  | a, n :: ns => a :: cumsum (a + n) ns

/-- `getcell(line, cellno)` (monitor.py lines 138-146), parametrised by the
`colstart` list it closes over.  Offsets are `Int` so that the
right-boundary decrement reproduces Python's negative-slice semantics
exactly; `Except.error` is an uncaught `IndexError`. -/
def getcell (colstart : List Nat) (line : Str) (cellno : Nat) :
    Except Unit Str := do
  let linelen := line.length
  let cs0 ← pyNth colstart cellno
  let o1 := min linelen cs0
  let offset1 ←
    if o1 ≠ 0 then do
      let c ← pyIndex line ((o1 : Int) - 1)
      pure (if c ≠ ' ' then o1 - 1 else o1)
    else pure o1
  let nominal ←
    if cellno + 1 < colstart.length then pyNth colstart (cellno + 1)
    else pure linelen
  let o2 := min linelen nominal
  let c2 ← pyIndex line ((o2 : Int) - 1)
  let offset2 : Int := if c2 ≠ ' ' then (o2 : Int) - 1 else (o2 : Int)
  pure (pyStrip (pySlice line (offset1 : Int) offset2))

/-- Decimal digit string to `Nat`; `none` when empty or any non-digit. -/
def digitsToNat : Str → Option Nat
  | [] => none
  | ds =>
    if ds.all (fun c => '0' ≤ c ∧ c ≤ '9') then
      some (ds.foldl (fun a c => a * 10 + (c.toNat - '0'.toNat)) 0)
    else none

/-- Python `int(s)` on a string: optional surrounding whitespace, optional
sign, decimal digits; `none` is a `ValueError`. -/
def pyInt (s : Str) : Option Int :=
  match pyStrip s with
  | '+' :: ds => (digitsToNat ds).map Int.ofNat
  | '-' :: ds => (digitsToNat ds).map (fun n => -(n : Int))
  | ds => (digitsToNat ds).map Int.ofNat

/-- A telemetry-record value: Python cell strings, possibly coerced to
`int` for the enumerated numeric fields. -/
inductive Val where
  | str (s : Str)
  | int (n : Int)
deriving DecidableEq, Repr

/-- A Python dict keyed by column name; key order is insertion order, as
produced by `dict(zip(headers, values))`. -/
abbrev Record := List (Str × Val)

/-- Python dict lookup `d[k]` (`none` is a `KeyError`).  A dict is
key-unique, so the first matching entry is the entry. -/
def dictGet : Record → Str → Option Val
  | [], _ => none
  | (k', v) :: d, k => if k' = k then some v else dictGet d k

/-- Python dict update `d[k] = v`: replace the value at an existing key
in place (insertion order preserved), else append the new key at the
end. -/
def dictSet : Record → Str → Val → Record
  | [], k, v => [(k, v)]
  | (k', v') :: d, k, v =>
    if k' = k then (k, v) :: d else (k', v') :: dictSet d k v

/-- `dict(zip(ks, vs))`. -/
def dictOfZip (ks : List Str) (vs : List Val) : Record :=
  (ks.zip vs).foldl (fun d p => dictSet d p.1 p.2) []

def baseStKey : Str := "Base.St".data
def absentStr : Str := "Absent".data
def coulombKey : Str := "Coulomb".data

/-- The enumerated numeric fields of monitor.py line 157. -/
def coerceKeys : List Str :=
  ["Power".data, "Volt".data, "Curr".data, "Tempr".data, "Tlow".data,
   "Thigh".data, "Vlow".data, "Vhigh".data, "MosTempr".data]

/-- `try: item[k] = int(item[k]) except: pass` (monitor.py lines 158-161):
a missing key (`KeyError`) or failed conversion (`ValueError`) leaves the
record unchanged; `int` applied to an already-int value returns it. -/
def coerceIntField (item : Record) (k : Str) : Record :=
  match dictGet item k with
  | some (.str s) =>
    match pyInt s with
    | some n => dictSet item k (.int n)
    | none => item
  | some (.int n) => dictSet item k (.int n)
  | none => item

/-- `try: item["Coulomb"] = int(item["Coulomb"][:-1]) except: pass`
(monitor.py lines 162-165): strip the last character, then parse; any
failure (missing key, unsubscriptable int, `ValueError`) is swallowed. -/
def coerceCoulomb (item : Record) : Record :=
  match dictGet item coulombKey with
  | some (.str s) =>
    match pyInt s.dropLast with
    | some n => dictSet item coulombKey (.int n)
    | none => item
  | some (.int _) => item
  | none => item

/-- The full per-record coercion pass (monitor.py lines 157-165). -/
def coerceFields (item : Record) : Record :=
  coerceCoulomb (coerceKeys.foldl coerceIntField item)

/-- `values = [getcell(line, i) for i in range(len(colstart))];
item = dict(zip(headers, values))` (monitor.py lines 152-153). -/
def rowItem (colstart : List Nat) (headers : List Str) (line : Str) :
    Except Unit Record := do
  let values ← (List.range colstart.length).mapM (getcell colstart line)
  pure (dictOfZip headers (values.map Val.str))

/-- Processing of one data line (monitor.py lines 152-166): build the
record, skip it if `Base.St` is `"Absent"` (`none`), otherwise coerce the
numeric fields; a missing `Base.St` key is an uncaught `KeyError`. -/
def processRow (colstart : List Nat) (headers : List Str) (line : Str) :
    Except Unit (Option Record) := do
  let item ← rowItem colstart headers line
  match dictGet item baseStKey with
  | none => .error ()
  | some v =>
    if v = .str absentStr then pure none
    else pure (some (coerceFields item))

/-- The loop over `lines[1:]` (monitor.py lines 150-166), in order. -/
def processRows (colstart : List Nat) (headers : List Str) :
    List Str → Except Unit (List Record)
  | [] => .ok []
  | l :: ls => do
    let o ← processRow colstart headers l
    let rest ← processRows colstart headers ls
    match o with
    | none => pure rest
    | some it => pure (it :: rest)

/-- The parsing body of `get_power` (monitor.py lines 131-168) on the
decoded response text: header split, column-boundary inference from the
rstripped header, header cells from the raw header line, then the row
loop. -/
def parsePowerTableE (response : Str) : Except Unit (List Record) := do
  let lines := pySplitLines response
  let header ← pyNth lines 0
  let colstart := cumsum 0 (colMatches (pyRstrip header))
  let headers ← (List.range colstart.length).mapM (getcell colstart header)
  processRows colstart headers lines.tail

/-- `get_power`'s parse with its wrapping handler (monitor.py lines
169-170): any exception inside the parse is re-raised as a
`TableParseError` carrying the original response text. -/
def parsePowerTable (response : Str) : Except Str (List Record) :=
  match parsePowerTableE response with
  | .ok items => .ok items
  | .error _ => .error response

/-! ## The framed protocol engine (monitor.py lines 14-16 and 25-75)

`network_command` is embedded over an explicit transport model.  One TCP
connection is a `Session`: whether `sock.connect` succeeds, and the
sequence of outcomes of the successive `sock.recv(256)` calls (`idle` =
`socket.timeout` or an empty read, `data d` = a delivered chunk).  Once a
session's listed events are exhausted every further read is idle, which
can only drive the idle counter over its bound, so the read loop's result
is already determined.  Each invocation of `network_command` opens a
fresh connection, consuming the next `Session` of a list; an exhausted
list behaves as an unreachable device (connect fails).  The `sendall`,
`time.sleep` and `print` calls and the idempotent `sock.close` do not
affect the modelled state.  `serial_command` (lines 77-123) has the
identical loop/validation/retry structure and is not separately embedded.
-/

def MARK_PROMPT : Str := "\rpylon>".data
def MARK_BEGIN : Str := "\n\r@\r\r\n".data
def MARK_END : Str :=
  "\r\n\rCommand completed successfully\r\n\r$$\r\n".data ++ MARK_PROMPT

/-- Outcome of one `sock.recv(256)` call. -/
inductive Event where
  | idle
  | data (d : Str)
deriving DecidableEq, Repr

/-- One TCP connection to the device. -/
structure Session where
  connectOk : Bool
  events : List Event
deriving DecidableEq, Repr

/-- The engine's error taxonomy; `commandFailed` is the terminal
`RuntimeError("Error sending command ...")` of lines 62-63 and carries
the swallowed exception that provoked it (Python's implicit exception
context). -/
inductive PErr where
  | connectError
  | readTimeout
  | frameCorrupt
  | commandFailed (cmd : Str) (cause : PErr)
deriving DecidableEq, Repr

/-- The read loop of monitor.py lines 39-53: accumulate chunks until the
terminator `mark` occurs in the buffer, raising `readTimeout` when the
idle counter exceeds 5.  An exhausted event list means every further
read is idle, so the loop can only time out. -/
def readLoop (mark : Str) (events : List Event) (resp : Str) (tc : Nat) :
    Except PErr Str :=
  if mark <:+: resp then .ok resp
  else if tc > 5 then .error .readTimeout
  else
    match events with
    | [] => .error .readTimeout
    | .idle :: rest => readLoop mark rest resp (tc + 1)
    | .data d :: rest => readLoop mark rest (resp ++ d) tc

/-- The body of `network_command`'s outer `try` (monitor.py lines 30-60)
over one session: connect, send, read until the terminator (`MARK_END`
when `checkframe` else `MARK_PROMPT`), rstrip, then — when `checkframe` —
validate `startswith(command + MARK_BEGIN)` / `endswith(mark_end)` and
slice the payload out; `decode` is the identity on the text model. -/
def attempt (s : Session) (cmd : Str) (checkframe : Bool) :
    Except PErr Str :=
  let mark := if checkframe then MARK_END else MARK_PROMPT
  if !s.connectOk then .error .connectError
  else
    match readLoop mark s.events [] 0 with
    | .error e => .error e
    | .ok resp0 =>
      let resp := pyRstrip resp0
      if checkframe then
        if (cmd ++ MARK_BEGIN) <+: resp ∧ mark <:+ resp then
          .ok (pySlice resp (cmd.length + MARK_BEGIN.length : Nat)
            (-(mark.length : Int)))
        else .error .frameCorrupt
      else .ok resp

/-- `network_command` (monitor.py lines 25-75).  Besides the result it
returns the unconsumed sessions and the log of attempts as
`(command, checkframe)` pairs, in order.  On failure with `retries = 0`
the caught exception is wrapped into `commandFailed` (lines 62-63);
otherwise the engine runs the unframed empty-command recovery probe with
`retries=0, checkframe=False` ignoring its outcome (lines 71-74) and
then retries with `retries-1` — the source does not forward `checkframe`
in this recursive call (line 75), so the retry always runs with the
default `checkframe=True`. -/
def network_command (retries : Nat) (sessions : List Session) (cmd : Str)
    (checkframe : Bool) :
    Except PErr Str × List Session × List (Str × Bool) :=
  let s := sessions.headD ⟨false, []⟩
  let rest := sessions.tail
  match attempt s cmd checkframe with
  | .ok p => (.ok p, rest, [(cmd, checkframe)])
  | .error e =>
    match retries with
    | 0 => (.error (.commandFailed cmd e), rest, [(cmd, checkframe)])
    | r + 1 =>
      let probe := network_command 0 rest [] false
      let retry := network_command r probe.2.1 cmd true
      (retry.1, retry.2.1, (cmd, checkframe) :: (probe.2.2 ++ retry.2.2))
termination_by retries
decreasing_by
  all_goals omega

/-! ## Unfolding lemmas for the engine -/

theorem network_command_of_ok {sessions : List Session} {cmd : Str}
    {ckf : Bool} {p : Str} (r : Nat)
    (h : attempt (sessions.headD ⟨false, []⟩) cmd ckf = .ok p) :
    network_command r sessions cmd ckf
      = (.ok p, sessions.tail, [(cmd, ckf)]) := by
  rw [network_command.eq_def]
  simp only [h]

theorem network_command_of_error_zero {sessions : List Session} {cmd : Str}
    {ckf : Bool} {e : PErr}
    (h : attempt (sessions.headD ⟨false, []⟩) cmd ckf = .error e) :
    network_command 0 sessions cmd ckf
      = (.error (.commandFailed cmd e), sessions.tail, [(cmd, ckf)]) := by
  rw [network_command.eq_def]
  simp only [h]

theorem network_command_of_error_succ {sessions : List Session} {cmd : Str}
    {ckf : Bool} {e : PErr} (r : Nat)
    (h : attempt (sessions.headD ⟨false, []⟩) cmd ckf = .error e) :
    network_command (r + 1) sessions cmd ckf
      = (let probe := network_command 0 sessions.tail [] false
         let retry := network_command r probe.2.1 cmd true
         (retry.1, retry.2.1, (cmd, ckf) :: (probe.2.2 ++ retry.2.2))) := by
  rw [network_command.eq_def]
  simp only [h]

/-- With `retries = 0` the engine makes a single attempt, so its log is
that one attempt whatever the outcome. -/
theorem network_command_zero_log (sessions : List Session) (cmd : Str)
    (ckf : Bool) :
    (network_command 0 sessions cmd ckf).2.2 = [(cmd, ckf)] := by
  rcases h : attempt (sessions.headD ⟨false, []⟩) cmd ckf with e | p
  · rw [network_command_of_error_zero h]
  · rw [network_command_of_ok 0 h]

/-- The engine's first logged attempt is always the original call's
command with the original call's `checkframe` flag. -/
theorem network_command_log_head (r : Nat) (sessions : List Session)
    (cmd : Str) (ckf : Bool) :
    ∃ t, (network_command r sessions cmd ckf).2.2 = (cmd, ckf) :: t := by
  rcases h : attempt (sessions.headD ⟨false, []⟩) cmd ckf with e | p
  · match r with
    | 0 => exact ⟨[], by rw [network_command_of_error_zero h]⟩
    | r + 1 =>
      simp only [network_command_of_error_succ r h]
      exact ⟨_, rfl⟩
  · exact ⟨[], by rw [network_command_of_ok r h]⟩

theorem network_command_cons_of_ok {s : Session} {rest : List Session}
    {cmd : Str} {ckf : Bool} {p : Str} (r : Nat)
    (h : attempt s cmd ckf = .ok p) :
    network_command r (s :: rest) cmd ckf = (.ok p, rest, [(cmd, ckf)]) :=
  network_command_of_ok r h

theorem network_command_cons_of_error_zero {s : Session}
    {rest : List Session} {cmd : Str} {ckf : Bool} {e : PErr}
    (h : attempt s cmd ckf = .error e) :
    network_command 0 (s :: rest) cmd ckf
      = (.error (.commandFailed cmd e), rest, [(cmd, ckf)]) :=
  network_command_of_error_zero h

theorem network_command_of_error_pos {sessions : List Session} {cmd : Str}
    {ckf : Bool} {e : PErr} (r : Nat) (hr : r ≠ 0)
    (h : attempt (sessions.headD ⟨false, []⟩) cmd ckf = .error e) :
    network_command r sessions cmd ckf
      = (let probe := network_command 0 sessions.tail [] false
         let retry := network_command (r - 1) probe.2.1 cmd true
         (retry.1, retry.2.1, (cmd, ckf) :: (probe.2.2 ++ retry.2.2))) := by
  match r with
  | 0 => exact absurd rfl hr
  | r + 1 => simpa using network_command_of_error_succ r h

theorem network_command_cons_of_error_pos {s : Session}
    {rest : List Session} {cmd : Str} {ckf : Bool} {e : PErr} (r : Nat)
    (hr : r ≠ 0) (h : attempt s cmd ckf = .error e) :
    network_command r (s :: rest) cmd ckf
      = (let probe := network_command 0 rest [] false
         let retry := network_command (r - 1) probe.2.1 cmd true
         (retry.1, retry.2.1, (cmd, ckf) :: (probe.2.2 ++ retry.2.2))) :=
  network_command_of_error_pos r hr h

/-- The fully evaluated behaviour of an unframed call with one retry
against an unreachable device: first attempt `(cmd, False)`, recovery
probe `("", False)`, retry `(cmd, True)` — the source's recursive call
at monitor.py line 75 passes no `checkframe`, so the retry reverts to
the default `True`. -/
theorem network_command_one_nil :
    network_command 1 [] ['x'] false
      = (.error (.commandFailed ['x'] .connectError), [],
         [(['x'], false), ([], false), (['x'], true)]) := by
  have h1 : attempt (([] : List Session).headD ⟨false, []⟩) ['x'] false
      = .error .connectError := by decide
  have h2 : attempt (([] : List Session).headD ⟨false, []⟩) [] false
      = .error .connectError := by decide
  have h3 : attempt (([] : List Session).headD ⟨false, []⟩) ['x'] true
      = .error .connectError := by decide
  rw [network_command_of_error_pos 1 (by decide) h1]
  simp only [List.tail_nil]
  rw [network_command_of_error_zero h2]
  simp only [Nat.sub_self, List.tail_nil]
  rw [network_command_of_error_zero h3]
  rfl

/-! ## Step lemmas for the read loop -/

theorem readLoop_done {mark resp : Str} (events : List Event) (tc : Nat)
    (h : mark <:+: resp) :
    readLoop mark events resp tc = .ok resp := by
  rw [readLoop.eq_def, if_pos h]

theorem readLoop_timeout {mark resp : Str} (events : List Event) {tc : Nat}
    (h : ¬ mark <:+: resp) (h6 : 5 < tc) :
    readLoop mark events resp tc = .error .readTimeout := by
  rw [readLoop.eq_def, if_neg h, if_pos h6]

theorem readLoop_idle {mark resp : Str} (rest : List Event) {tc : Nat}
    (h : ¬ mark <:+: resp) (h5 : tc ≤ 5) :
    readLoop mark (.idle :: rest) resp tc = readLoop mark rest resp (tc + 1) := by
  rw [readLoop.eq_def, if_neg h, if_neg (by omega : ¬ tc > 5)]

theorem readLoop_data {mark resp d : Str} (rest : List Event) {tc : Nat}
    (h : ¬ mark <:+: resp) (h5 : tc ≤ 5) :
    readLoop mark (.data d :: rest) resp tc
      = readLoop mark rest (resp ++ d) tc := by
  rw [readLoop.eq_def, if_neg h, if_neg (by omega : ¬ tc > 5)]

/-- The bytes delivered by a whole event stream. -/
def allData : List Event → Str
  | [] => []
  | .idle :: rest => allData rest
  | .data d :: rest => d ++ allData rest

/-- An infix of a buffer stays an infix after more bytes arrive. -/
theorem infix_append_right {mark resp ext : Str} (h : mark <:+: resp) :
    mark <:+: resp ++ ext := by
  obtain ⟨s, t, rfl⟩ := h
  exact ⟨s, t ++ ext, by simp⟩

/-- If the terminator never occurs in everything the transport will ever
deliver, the read loop can only time out: each read either yields data
(leaving the counter alone) or idles (incrementing it), and after the
stream is exhausted every read idles. -/
theorem readLoop_no_term {mark : Str} (events : List Event) (resp : Str)
    (tc : Nat) (h : ¬ mark <:+: resp ++ allData events) :
    readLoop mark events resp tc = .error .readTimeout := by
  induction events generalizing resp tc with
  | nil =>
    have hr : ¬ mark <:+: resp := by simpa [allData] using h
    rw [readLoop.eq_def, if_neg hr]
    split <;> rfl
  | cons ev rest ih =>
    cases ev with
    | idle =>
      have hr : ¬ mark <:+: resp := fun hc =>
        h (by simpa [allData] using infix_append_right hc)
      rw [readLoop.eq_def, if_neg hr]
      split
      · rfl
      · exact ih resp (tc + 1) (by simpa [allData] using h)
    | data d =>
      have hr : ¬ mark <:+: resp := fun hc =>
        h (by simpa [allData] using infix_append_right hc)
      rw [readLoop.eq_def, if_neg hr]
      split
      · rfl
      · exact ih (resp ++ d) tc (by simpa [allData, List.append_assoc] using h)

/-! ## Frame algebra for well-formed responses -/

theorem pyRstrip_append_nonws {c : Char} (X : Str) (h : isPyWs c = false) :
    pyRstrip (X ++ [c]) = X ++ [c] := by
  simp [pyRstrip, List.dropWhile_cons, h]

/-- `MARK_END` ends in the non-whitespace `'>'`, so `rstrip` leaves a
buffer ending in `MARK_END` untouched. -/
theorem pyRstrip_markEnd (X : Str) : pyRstrip (X ++ MARK_END) = X ++ MARK_END := by
  have h : X ++ MARK_END = (X ++ MARK_END.dropLast) ++ ['>'] := by
    rw [List.append_assoc]
    congr 1
  rw [h]
  exact pyRstrip_append_nonws _ (by decide)

/-- The payload-extraction slice `resp[len(A):-len(E)]` on a buffer of
the exact shape `A ++ P ++ E`. -/
theorem pySlice_frame (A P E : Str) (hE : E ≠ []) :
    pySlice ((A ++ P) ++ E) (A.length : Int) (-(E.length : Int)) = P := by
  have hEpos : 0 < E.length := List.length_pos.mpr hE
  simp only [pySlice, List.length_append]
  rw [if_neg (by omega : ¬ (A.length : Int) < 0),
    if_pos (by omega : -(E.length : Int) < 0),
    min_eq_left (by push_cast; omega :
      (A.length : Int) ≤ ((A.length + P.length + E.length : Nat) : Int)),
    max_eq_right (by push_cast; omega : (0 : Int)
      ≤ ((A.length + P.length + E.length : Nat) : Int) + -(E.length : Int))]
  have h1 : (((A.length + P.length + E.length : Nat) : Int)
      + -(E.length : Int)).toNat = A.length + P.length := by omega
  have h2 : ((A.length : Int)).toNat = A.length := rfl
  rw [h1, h2, List.take_left' (by simp : (A ++ P).length = A.length + P.length),
    List.drop_left]

/-! ## Parser lemmas -/

theorem except_bind_ok {ε α β : Type} (a : α) (f : α → Except ε β) :
    (Except.ok a >>= f) = f a := rfl

theorem except_bind_error {ε α β : Type} (e : ε) (f : α → Except ε β) :
    ((Except.error e : Except ε α) >>= f) = Except.error e := rfl

theorem pySplitLines_ne_nil (s : Str) : pySplitLines s ≠ [] := by
  cases s with
  | nil => simp [pySplitLines]
  | cons c rest =>
    rw [pySplitLines]
    split
    · simp
    · split <;> simp

theorem cumsum_zero_cons (m : List Nat) : ∃ ct, cumsum 0 m = 0 :: ct := by
  cases m <;> exact ⟨_, rfl⟩

/-- `getcell` on an empty line raises: both offsets clamp to `0`, and the
unguarded right-boundary check `line[offset2-1]` indexes an empty string
at `-1` (monitor.py line 144). -/
theorem getcell_nil_error (t : List Nat) : getcell (0 :: t) [] 0 = .error () := by
  rcases t with _ | ⟨n, t'⟩ <;>
    simp [getcell, pyNth, pyIndex, except_bind_ok]

/-- The cell comprehension for an empty data line fails on its first
cell. -/
theorem rowItem_nil_error (t : List Nat) (hs : List Str) :
    rowItem (0 :: t) hs [] = .error () := by
  rw [rowItem]
  rw [show (0 :: t : List Nat).length = t.length + 1 from rfl,
    List.range_succ_eq_map, List.mapM_cons, getcell_nil_error]
  rfl

theorem processRow_nil_error (t : List Nat) (hs : List Str) :
    processRow (0 :: t) hs [] = .error () := by
  rw [processRow, rowItem_nil_error]
  rfl

theorem processRows_error_of_mem (t : List Nat) (hs : List Str)
    (lines : List Str) (hmem : [] ∈ lines) :
    processRows (0 :: t) hs lines = .error () := by
  induction lines with
  | nil => cases hmem
  | cons l ls ih =>
    rw [processRows]
    rcases List.mem_cons.mp hmem with rfl | hmem'
    · rw [processRow_nil_error]
      rfl
    · cases hrow : processRow (0 :: t) hs l with
      | error e => rfl
      | ok o =>
        rw [except_bind_ok, ih hmem']
        rfl

/-! ## Dictionary and row lemmas for the Absent filter -/

theorem dictGet_dictSet_ne (d : Record) (k k' : Str) (v : Val)
    (hne : k' ≠ k) :
    dictGet (dictSet d k v) k' = dictGet d k' := by
  induction d with
  | nil =>
    simp only [dictSet, dictGet]
    rw [if_neg (fun h => hne h.symm)]
  | cons p t ih =>
    obtain ⟨k0, v0⟩ := p
    rw [dictSet]
    by_cases h0 : k0 = k
    · rw [if_pos h0, dictGet, dictGet,
        if_neg (fun h => hne h.symm),
        if_neg (fun h : k0 = k' => hne (h0 ▸ h).symm)]
    · rw [if_neg h0, dictGet, dictGet]
      by_cases hk' : k0 = k'
      · rw [if_pos hk', if_pos hk']
      · rw [if_neg hk', if_neg hk', ih]

theorem except_pure_def {ε α : Type} (a : α) :
    (pure a : Except ε α) = Except.ok a := rfl

theorem dictGet_coerceIntField_ne (item : Record) (k k' : Str)
    (hne : k' ≠ k) :
    dictGet (coerceIntField item k) k' = dictGet item k' := by
  cases hg : dictGet item k with
  | none => simp [coerceIntField, hg]
  | some v =>
    cases v with
    | str s =>
      cases hp : pyInt s with
      | none => simp [coerceIntField, hg, hp]
      | some n =>
        simp [coerceIntField, hg, hp,
          dictGet_dictSet_ne item k k' (.int n) hne]
    | int n =>
      simp [coerceIntField, hg, dictGet_dictSet_ne item k k' (.int n) hne]

theorem dictGet_coerceCoulomb_ne (item : Record) (k' : Str)
    (hne : k' ≠ coulombKey) :
    dictGet (coerceCoulomb item) k' = dictGet item k' := by
  cases hg : dictGet item coulombKey with
  | none => simp [coerceCoulomb, hg]
  | some v =>
    cases v with
    | str s =>
      cases hp : pyInt s.dropLast with
      | none => simp [coerceCoulomb, hg, hp]
      | some n =>
        simp [coerceCoulomb, hg, hp,
          dictGet_dictSet_ne item coulombKey k' (.int n) hne]
    | int n => simp [coerceCoulomb, hg]

theorem dictGet_foldl_coerce_ne (ks : List Str) (item : Record) (k' : Str)
    (hk : k' ∉ ks) :
    dictGet (ks.foldl coerceIntField item) k' = dictGet item k' := by
  induction ks generalizing item with
  | nil => rfl
  | cons k t ih =>
    rw [List.foldl_cons,
      ih (coerceIntField item k) (fun h => hk (List.mem_cons_of_mem k h)),
      dictGet_coerceIntField_ne item k k'
        (fun h => hk (h ▸ List.mem_cons_self k t))]

/-- The per-record coercion pass never touches the `Base.St` field. -/
theorem dictGet_coerceFields_baseSt (item : Record) :
    dictGet (coerceFields item) baseStKey = dictGet item baseStKey := by
  rw [coerceFields,
    dictGet_coerceCoulomb_ne _ _ (by decide),
    dictGet_foldl_coerce_ne coerceKeys item baseStKey (by decide)]

/-- Inversion of row processing: an emitted record is the coercion of a
zipped row whose `Base.St` value is present and not `"Absent"`. -/
theorem processRow_some_inv {cs : List Nat} {hs : List Str} {l : Str}
    {item' : Record} (h : processRow cs hs l = .ok (some item')) :
    ∃ item v, rowItem cs hs l = .ok item
      ∧ dictGet item baseStKey = some v ∧ v ≠ .str absentStr
      ∧ item' = coerceFields item := by
  rw [processRow] at h
  cases hri : rowItem cs hs l with
  | error e =>
    rw [hri, except_bind_error] at h
    cases h
  | ok item =>
    rw [hri, except_bind_ok] at h
    cases hget : dictGet item baseStKey with
    | none =>
      rw [hget] at h
      simp at h
    | some v =>
      rw [hget] at h
      by_cases hv : v = .str absentStr
      · simp only [if_pos hv, except_pure_def] at h
        simp at h
      · simp only [if_neg hv, except_pure_def] at h
        refine ⟨item, v, rfl, hget, hv, ?_⟩
        simpa using h.symm

/-- Forward direction: a row that zips to a record with a non-Absent
`Base.St` is processed into its coerced record. -/
theorem processRow_of_rowItem {cs : List Nat} {hs : List Str} {l : Str}
    {item : Record} {v : Val} (hri : rowItem cs hs l = .ok item)
    (hget : dictGet item baseStKey = some v) (hv : v ≠ .str absentStr) :
    processRow cs hs l = .ok (some (coerceFields item)) := by
  rw [processRow, hri, except_bind_ok, hget]
  simp only [if_neg hv, except_pure_def]

/-- Every record the row loop emits has a present, non-`"Absent"`
`Base.St` value. -/
theorem processRows_status (cs : List Nat) (hs : List Str) :
    ∀ (lines : List Str) (items : List Record),
      processRows cs hs lines = .ok items →
      ∀ it ∈ items, ∃ v, dictGet it baseStKey = some v
        ∧ v ≠ .str absentStr := by
  intro lines
  induction lines with
  | nil =>
    intro items h
    rw [processRows] at h
    cases h
    simp
  | cons l ls ih =>
    intro items h
    rw [processRows] at h
    cases hrow : processRow cs hs l with
    | error e =>
      rw [hrow, except_bind_error] at h
      cases h
    | ok o =>
      rw [hrow, except_bind_ok] at h
      cases hrest : processRows cs hs ls with
      | error e =>
        rw [hrest, except_bind_error] at h
        cases h
      | ok rest =>
        rw [hrest, except_bind_ok] at h
        have hr := ih rest hrest
        cases o with
        | none =>
          rw [show ((match (none : Option Record) with
              | none => pure rest
              | some it => pure (it :: rest)) : Except Unit (List Record))
            = .ok rest from rfl] at h
          cases h
          exact hr
        | some it0 =>
          rw [show ((match (some it0 : Option Record) with
              | none => pure rest
              | some it => pure (it :: rest)) : Except Unit (List Record))
            = .ok (it0 :: rest) from rfl] at h
          cases h
          intro it hit
          rcases List.mem_cons.mp hit with rfl | hit'
          · obtain ⟨item, v, _, hget, hv, hco⟩ := processRow_some_inv hrow
            subst hco
            exact ⟨v, by rw [dictGet_coerceFields_baseSt, hget], hv⟩
          · exact hr it hit'

/-- Every data line whose zipped record has a present, non-`"Absent"`
`Base.St` contributes its coerced record to the output. -/
theorem processRows_complete (cs : List Nat) (hs : List Str) (l : Str)
    (item : Record) (v : Val) (hri : rowItem cs hs l = .ok item)
    (hget : dictGet item baseStKey = some v) (hv : v ≠ .str absentStr) :
    ∀ (lines : List Str) (items : List Record),
      processRows cs hs lines = .ok items → l ∈ lines →
      coerceFields item ∈ items := by
  intro lines
  induction lines with
  | nil =>
    intro items _ hl
    cases hl
  | cons l' ls ih =>
    intro items h hl
    rw [processRows] at h
    rcases List.mem_cons.mp hl with rfl | hl'
    · rw [processRow_of_rowItem hri hget hv, except_bind_ok] at h
      cases hrest : processRows cs hs ls with
      | error e =>
        rw [hrest, except_bind_error] at h
        cases h
      | ok rest =>
        rw [hrest, except_bind_ok] at h
        rw [show ((match (some (coerceFields item) : Option Record) with
            | none => pure rest
            | some it => pure (it :: rest)) : Except Unit (List Record))
          = .ok (coerceFields item :: rest) from rfl] at h
        cases h
        exact List.mem_cons_self _ _
    · cases hrow : processRow cs hs l' with
      | error e =>
        rw [hrow, except_bind_error] at h
        cases h
      | ok o =>
        rw [hrow, except_bind_ok] at h
        cases hrest : processRows cs hs ls with
        | error e =>
          rw [hrest, except_bind_error] at h
          cases h
        | ok rest =>
          rw [hrest, except_bind_ok] at h
          have hmem := ih rest hrest hl'
          cases o with
          | none =>
            rw [show ((match (none : Option Record) with
                | none => pure rest
                | some it => pure (it :: rest)) : Except Unit (List Record))
              = .ok rest from rfl] at h
            cases h
            exact hmem
          | some it0 =>
            rw [show ((match (some it0 : Option Record) with
                | none => pure rest
                | some it => pure (it :: rest)) : Except Unit (List Record))
              = .ok (it0 :: rest) from rfl] at h
            cases h
            exact List.mem_cons_of_mem _ hmem

/-- A successful parse factors through a successful row loop. -/
theorem parsePowerTable_ok_inv {resp : Str} {items : List Record}
    (h : parsePowerTable resp = .ok items) :
    ∃ cs hs, processRows cs hs (pySplitLines resp).tail = .ok items := by
  rw [parsePowerTable] at h
  cases hE : parsePowerTableE resp with
  | error e =>
    rw [hE] at h
    cases h
  | ok its =>
    rw [hE] at h
    cases h
    rw [parsePowerTableE] at hE
    obtain ⟨hd, tl, hcons⟩ : ∃ hd tl, pySplitLines resp = hd :: tl := by
      rcases hsplit : pySplitLines resp with _ | ⟨hd, tl⟩
      · exact absurd hsplit (pySplitLines_ne_nil resp)
      · exact ⟨hd, tl, rfl⟩
    rw [hcons] at hE
    rw [show pyNth (hd :: tl) 0 = .ok hd from rfl, except_bind_ok] at hE
    replace hE : ((List.range
          (cumsum 0 (colMatches (pyRstrip hd))).length).mapM
          (getcell (cumsum 0 (colMatches (pyRstrip hd))) hd)
        >>= fun headers =>
          processRows (cumsum 0 (colMatches (pyRstrip hd))) headers
            (hd :: tl).tail) = Except.ok items := hE
    cases hmapM : (List.range
        (cumsum 0 (colMatches (pyRstrip hd))).length).mapM
        (getcell (cumsum 0 (colMatches (pyRstrip hd))) hd) with
    | error e =>
      rw [hmapM, except_bind_error] at hE
      cases hE
    | ok hs =>
      rw [hmapM, except_bind_ok] at hE
      exact ⟨_, hs, by rw [hcons, List.tail_cons]; exact hE⟩

/-! ## Concrete material for the end-to-end parser scenario -/

/-- The spec's end-to-end scenario input: header `"Base.St Power Volt"`,
one data row `"Normal  120   480"`, no trailing whitespace on either. -/
def scenarioInput : Str := "Base.St Power Volt\nNormal  120   480".data

/-- The record the parser actually produces for `scenarioInput`. -/
def scenarioActual : Record :=
  [("Base.St".data, Val.str "Normal".data),
   ("Power".data, Val.int 120),
   ("Vol".data, Val.str "48".data)]

/-- The record the spec scenario predicts for `scenarioInput`. -/
def scenarioClaimed : Record :=
  [("Base.St".data, Val.str "Normal".data),
   ("Power".data, Val.int 120),
   ("Volt".data, Val.int 480)]

/-! ## Claim theorems -/

/-- C1.  For every ASCII command without embedded newlines and every
payload, when the transport delivers exactly the bytes
`command ++ MARK_BEGIN ++ payload ++ MARK_END`, the framed `execute`
returns exactly that payload (decoded to text — the identity on this
text model). -/
theorem wellformed_response_returns_payload (cmd payload : Str)
    (_hcmd : ∀ c ∈ cmd, c.toNat < 128 ∧ c ≠ '\n') :
    network_command 1
        [⟨true, [.data (cmd ++ MARK_BEGIN ++ payload ++ MARK_END)]⟩] cmd true
      = (.ok payload, [], [(cmd, true)]) := by
  have hsuf : MARK_END <:+ cmd ++ MARK_BEGIN ++ payload ++ MARK_END :=
    ⟨cmd ++ MARK_BEGIN ++ payload, rfl⟩
  have hinf : MARK_END <:+: cmd ++ MARK_BEGIN ++ payload ++ MARK_END :=
    List.IsSuffix.isInfix hsuf
  have hloop : readLoop MARK_END
      [.data (cmd ++ MARK_BEGIN ++ payload ++ MARK_END)] [] 0
      = .ok (cmd ++ MARK_BEGIN ++ payload ++ MARK_END) := by
    rw [readLoop_data [] (by decide) (by omega)]
    exact readLoop_done [] 0 hinf
  have hr : pyRstrip (cmd ++ MARK_BEGIN ++ payload ++ MARK_END)
      = cmd ++ MARK_BEGIN ++ payload ++ MARK_END :=
    pyRstrip_markEnd (cmd ++ MARK_BEGIN ++ payload)
  have hpre : (cmd ++ MARK_BEGIN) <+: cmd ++ MARK_BEGIN ++ payload ++ MARK_END :=
    ⟨payload ++ MARK_END, by simp [List.append_assoc]⟩
  have hatt : attempt ⟨true, [.data (cmd ++ MARK_BEGIN ++ payload ++ MARK_END)]⟩
      cmd true = .ok payload := by
    rw [attempt]
    simp only [Bool.not_true, Bool.false_eq_true, if_false, if_true, hloop, hr]
    rw [if_pos ⟨hpre, hsuf⟩]
    congr 1
    have hcast : ((cmd.length + MARK_BEGIN.length : Nat) : Int)
        = ((cmd ++ MARK_BEGIN).length : Int) := by simp
    rw [hcast]
    exact pySlice_frame (cmd ++ MARK_BEGIN) payload MARK_END (by decide)
  rw [network_command_cons_of_ok 1 hatt]

/-- C1, witness: the `pwr` command with payload `"hi"`. -/
theorem wellformed_response_returns_payload_witness :
    (∀ c ∈ "pwr".data, c.toNat < 128 ∧ c ≠ '\n') ∧
      network_command 1
          [⟨true, [.data ("pwr".data ++ MARK_BEGIN ++ "hi".data ++ MARK_END)]⟩]
          "pwr".data true
        = (.ok "hi".data, [], [("pwr".data, true)]) :=
  ⟨by decide,
   wellformed_response_returns_payload "pwr".data "hi".data (by decide)⟩

/-- C2, counterexample.  On the spec's own scenario input the parser does
not produce the claimed record `{"Base.St": "Normal", "Power": 120,
"Volt": 480}`: the row's last cell comes out as `"48"` under the key
`"Vol"`, and no `"Volt"` key exists at all. -/
theorem power_scenario_counterexample :
    parsePowerTable scenarioInput ≠ .ok [scenarioClaimed] ∧
      dictGet scenarioActual "Volt".data = none := by
  decide

/-- C2, amended.  `parsePowerTable` on header `"Base.St Power Volt"` and
row `"Normal  120   480"` yields exactly one record, namely
`{"Base.St": "Normal", "Power": 120, "Vol": "48"}`: because neither line
carries trailing whitespace, the one-character right-boundary adjustment
(`line[offset2-1] != " "`, monitor.py line 144) also fires at the end of
each line, truncating the header's last label to `"Vol"` and the last
cell to `"48"`; the `"48"` stays text since the coercion list names
`"Volt"`, which is not a key of the record. -/
theorem power_scenario_amended :
    parsePowerTable scenarioInput = .ok [scenarioActual] := by
  decide

/-- C3, counterexample.  A Coulomb cell holding the bare digits `"4500"`
(no trailing unit character) does not keep its text value: the coercion
strips the last digit and succeeds, storing the integer `450`. -/
theorem coulomb_coercion_counterexample :
    coerceCoulomb [(coulombKey, Val.str "4500".data)]
        = [(coulombKey, Val.int 450)] ∧
      coerceCoulomb [(coulombKey, Val.str "4500".data)]
        ≠ [(coulombKey, Val.str "4500".data)] := by
  decide

/-- C3, amended.  Coulomb coercion always strips the last character and
then parses: `"4500C"` coerces to `4500`; bare digits `"4500"` coerce —
silently but wrongly — to `450`; the record keeps the original text only
when the cell minus its last character fails integer parsing, as for
`"45x0"`. -/
theorem coulomb_coercion_amended :
    coerceCoulomb [(coulombKey, Val.str "4500C".data)]
        = [(coulombKey, Val.int 4500)] ∧
      coerceCoulomb [(coulombKey, Val.str "4500".data)]
        = [(coulombKey, Val.int 450)] ∧
      coerceCoulomb [(coulombKey, Val.str "45x0".data)]
        = [(coulombKey, Val.str "45x0".data)] := by
  decide

/-- C4, counterexample.  An unframed call (`checkframe=False`) with one
retry against an unreachable device logs the attempts
`[(x, False), ("", False), (x, True)]`: the retry re-executes the
command *framed*, not unframed as the claim states — monitor.py line 75
omits `checkframe` from the recursive call, so it reverts to the
default `True`. -/
theorem retry_flag_counterexample :
    (network_command 1 [] ['x'] false).2.2
        = [(['x'], false), ([], false), (['x'], true)] ∧
      (network_command 1 [] ['x'] false).2.2
        ≠ [(['x'], false), ([], false), (['x'], false)] := by
  rw [network_command_one_nil]
  exact ⟨rfl, by decide⟩

/-- C4, amended.  When `execute` fails with retries remaining it first
issues the ignored unframed empty-command recovery probe
(`("", False)`) and then recurses with the same command and one retry
fewer — but with `checkframe` reset to its default `True` rather than
the original call's flag: every attempt logged after the first is
either the recovery probe or a *framed* retry of the command. -/
theorem retry_flag_amended (r : Nat) (sessions : List Session) (cmd : Str)
    (ckf : Bool) :
    ∀ q ∈ ((network_command r sessions cmd ckf).2.2).tail,
      q = ([], false) ∨ q = (cmd, true) := by
  induction r generalizing sessions ckf with
  | zero =>
    rw [network_command_zero_log]
    intro q hq
    simp at hq
  | succ r ih =>
    rcases h : attempt (sessions.headD ⟨false, []⟩) cmd ckf with e | p
    · simp only [network_command_of_error_succ r h, network_command_zero_log,
        List.tail_cons, List.singleton_append]
      intro q hq
      rcases List.mem_cons.mp hq with hq | hq
      · exact Or.inl hq
      · obtain ⟨t, ht⟩ := network_command_log_head r
          (network_command 0 sessions.tail [] false).2.1 cmd true
        rw [ht] at hq
        rcases List.mem_cons.mp hq with hq | hq
        · exact Or.inr hq
        · have := ih (network_command 0 sessions.tail [] false).2.1 true
          rw [ht] at this
          exact this q hq
    · rw [network_command_of_ok (r + 1) h]
      intro q hq
      simp at hq

/-- C4 amended, witness: instantiated at the unframed one-retry call
against an unreachable device, whose logged retry `(x, True)` the
amended claim classifies. -/
theorem retry_flag_amended_witness :
    ((['x'], true) : Str × Bool) = ([], false) ∨
      ((['x'], true) : Str × Bool) = (['x'], true) := by
  apply retry_flag_amended 1 [] ['x'] false
  rw [network_command_one_nil]
  decide

/-- C5.  If the terminator (`MARK_END` when framed, bare `MARK_PROMPT`
otherwise) never occurs in anything the transport delivers, `execute`
with no retries remaining fails with the timeout error (surfaced, per
monitor.py lines 62-63, as the terminal `commandFailed` wrapping
`readTimeout`); and the loop raises the timeout precisely after 6 idle
read cycles, whatever reads would have followed. -/
theorem missing_terminator_times_out (cmd : Str) (ckf : Bool)
    (events : List Event)
    (h : ¬ (if ckf then MARK_END else MARK_PROMPT) <:+: allData events) :
    (network_command 0 [⟨true, events⟩] cmd ckf).1
        = .error (.commandFailed cmd .readTimeout) ∧
      ∀ rest : List Event,
        readLoop (if ckf then MARK_END else MARK_PROMPT)
          (List.replicate 6 .idle ++ rest) [] 0 = .error .readTimeout := by
  have hnil : ¬ (if ckf then MARK_END else MARK_PROMPT) <:+: ([] : Str) := by
    cases ckf <;> decide
  constructor
  · have hatt : attempt ⟨true, events⟩ cmd ckf = .error .readTimeout := by
      rw [attempt]
      simp only [Bool.not_true, Bool.false_eq_true, if_false,
        readLoop_no_term events [] 0 (by simpa using h)]
    rw [network_command_cons_of_error_zero hatt]
  · intro rest
    rw [show (List.replicate 6 Event.idle ++ rest : List Event)
          = .idle :: .idle :: .idle :: .idle :: .idle :: .idle :: rest from rfl,
      readLoop_idle _ hnil (by omega), readLoop_idle _ hnil (by omega),
      readLoop_idle _ hnil (by omega), readLoop_idle _ hnil (by omega),
      readLoop_idle _ hnil (by omega), readLoop_idle _ hnil (by omega),
      readLoop_timeout rest hnil (by omega)]

/-- C5, witness: a framed `pwr` call over a transport that only idles. -/
theorem missing_terminator_times_out_witness :
    (¬ (if true then MARK_END else MARK_PROMPT) <:+: allData [.idle]) ∧
      (network_command 0 [⟨true, [.idle]⟩] "pwr".data true).1
        = .error (.commandFailed "pwr".data .readTimeout) :=
  ⟨by decide,
   (missing_terminator_times_out "pwr".data true [.idle] (by decide)).1⟩

/-- C6.  If the read loop does deliver a buffer (the terminator was
seen) but after `rstrip` the buffer violates
`startswith(command + MARK_BEGIN) and endswith(MARK_END)`, the framed
`execute` with no retries remaining raises the frame-corruption error
(surfaced, per monitor.py lines 62-63, as the terminal `commandFailed`
wrapping `frameCorrupt`). -/
theorem corrupt_frame_raises (cmd buf : Str) (events : List Event)
    (hloop : readLoop MARK_END events [] 0 = .ok buf)
    (hbad : ¬ ((cmd ++ MARK_BEGIN) <+: pyRstrip buf
        ∧ MARK_END <:+ pyRstrip buf)) :
    (network_command 0 [⟨true, events⟩] cmd true).1
      = .error (.commandFailed cmd .frameCorrupt) := by
  have hatt : attempt ⟨true, events⟩ cmd true = .error .frameCorrupt := by
    rw [attempt]
    simp only [Bool.not_true, Bool.false_eq_true, if_false, if_true, hloop,
      if_neg hbad]
  rw [network_command_cons_of_error_zero hatt]

/-- C6, witness: a response `"junk" ++ MARK_END` that terminates the
loop but starts with no command echo. -/
theorem corrupt_frame_raises_witness :
    readLoop MARK_END [.data ("junk".data ++ MARK_END)] [] 0
        = .ok ("junk".data ++ MARK_END) ∧
      (¬ (("pwr".data ++ MARK_BEGIN) <+: pyRstrip ("junk".data ++ MARK_END)
          ∧ MARK_END <:+ pyRstrip ("junk".data ++ MARK_END))) ∧
      (network_command 0 [⟨true, [.data ("junk".data ++ MARK_END)]⟩]
          "pwr".data true).1
        = .error (.commandFailed "pwr".data .frameCorrupt) :=
  ⟨by decide, by decide,
   corrupt_frame_raises "pwr".data ("junk".data ++ MARK_END) _
     (by decide) (by decide)⟩

/-- C7.  With one retry remaining, a transport whose first connection
fails the attempt and whose third connection (the first being the failed
attempt, the second consumed by the recovery probe) succeeds: `execute`
returns the successful second attempt's payload, and the unframed
empty-command recovery probe is attempted exactly once, between the
failed attempt and the retry, its own outcome ignored. -/
theorem retry_succeeds_second_attempt (s1 s2 s3 : Session)
    (rest : List Session) (cmd payload : Str) (ckf : Bool) (e : PErr)
    (h1 : attempt s1 cmd ckf = .error e)
    (h2 : attempt s3 cmd true = .ok payload) :
    network_command 1 (s1 :: s2 :: s3 :: rest) cmd ckf
      = (.ok payload, rest, [(cmd, ckf), ([], false), (cmd, true)]) := by
  rcases hp : attempt s2 [] false with ep | pp
  · simp only [network_command_cons_of_error_pos 1 (by decide) h1,
      Nat.sub_self, network_command_cons_of_error_zero hp,
      network_command_cons_of_ok 0 h2]
    rfl
  · simp only [network_command_cons_of_error_pos 1 (by decide) h1,
      Nat.sub_self, network_command_cons_of_ok 0 hp,
      network_command_cons_of_ok 0 h2]
    rfl

/-- C7, witness: two dead connections then a well-formed `pwr` frame. -/
theorem retry_succeeds_second_attempt_witness :
    attempt ⟨false, []⟩ "pwr".data true = .error .connectError ∧
      attempt ⟨true, [.data ("pwr".data ++ MARK_BEGIN ++ "P".data
          ++ MARK_END)]⟩ "pwr".data true = .ok "P".data ∧
      network_command 1
          [⟨false, []⟩, ⟨false, []⟩,
           ⟨true, [.data ("pwr".data ++ MARK_BEGIN ++ "P".data ++ MARK_END)]⟩]
          "pwr".data true
        = (.ok "P".data, [],
           [("pwr".data, true), ([], false), ("pwr".data, true)]) :=
  ⟨by decide, by decide,
   retry_succeeds_second_attempt _ _ _ [] "pwr".data "P".data true
     .connectError (by decide) (by decide)⟩

/-- C9.  Within one `execute`, the idle counter only ever moves by
incrementing on an idle read: a data-yielding read leaves it unchanged
(never resets it), the loop raises its timeout as soon as the
accumulated idle count exceeds 5 — regardless of what reads would
follow, so also with idle reads interleaved among data reads — and the
loop succeeds purely on terminator presence, at any counter value, with
no overall elapsed-time bound. -/
theorem idle_counter_behaviour (mark resp d : Str) (rest events : List Event)
    (tc : Nat) :
    (¬ mark <:+: resp → tc ≤ 5 →
        readLoop mark (.data d :: rest) resp tc
          = readLoop mark rest (resp ++ d) tc)
      ∧ (¬ mark <:+: resp → tc ≤ 5 →
          readLoop mark (.idle :: rest) resp tc
            = readLoop mark rest resp (tc + 1))
      ∧ (¬ mark <:+: resp → 5 < tc →
          readLoop mark events resp tc = .error .readTimeout)
      ∧ (mark <:+: resp → readLoop mark events resp tc = .ok resp) :=
  ⟨fun h h5 => readLoop_data rest h h5,
   fun h h5 => readLoop_idle rest h h5,
   fun h h6 => readLoop_timeout events h h6,
   fun h => readLoop_done events tc h⟩

/-- C8.  In the record sequence produced by the table parser, every
emitted telemetry record has a present `Base.St` status different from
`"Absent"`; and every data line whose zipped record carries a present,
non-`"Absent"` `Base.St` always appears (as its coerced record) in the
output. -/
theorem absent_rows_filtered :
    (∀ (resp : Str) (items : List Record),
        parsePowerTable resp = .ok items →
        ∀ it ∈ items, ∃ v, dictGet it baseStKey = some v
          ∧ v ≠ .str absentStr)
      ∧ (∀ (cs : List Nat) (hs : List Str) (lines : List Str)
          (items : List Record),
          processRows cs hs lines = .ok items →
          ∀ l ∈ lines, ∀ (item : Record) (v : Val),
            rowItem cs hs l = .ok item →
            dictGet item baseStKey = some v →
            v ≠ .str absentStr → coerceFields item ∈ items) := by
  constructor
  · intro resp items h
    obtain ⟨cs, hs, hrows⟩ := parsePowerTable_ok_inv h
    exact processRows_status cs hs _ items hrows
  · intro cs hs lines items h l hl item v hri hget hv
    exact processRows_complete cs hs l item v hri hget hv lines items h hl

/-- C8, witness: the scenario parse emits exactly the `"Normal"` row,
whose status is present and non-Absent. -/
theorem absent_rows_filtered_witness :
    ∃ v, dictGet scenarioActual baseStKey = some v
      ∧ v ≠ Val.str absentStr :=
  (absent_rows_filtered.1 scenarioInput [scenarioActual] (by decide))
    scenarioActual (by decide)

/-- C10.  Any payload with an empty line after the header makes the
parser raise the wrapping parse error carrying the response text — it
never skips the empty line or emits a record for it: the cell slicer
evaluates `line[offset2-1]` with `offset2 = 0` on the empty string,
raising `IndexError` inside the wrapping handler. -/
theorem empty_line_parse_error (payload : Str)
    (h : [] ∈ (pySplitLines payload).tail) :
    parsePowerTable payload = .error payload := by
  rw [parsePowerTable]
  suffices hE : parsePowerTableE payload = .error () by rw [hE]
  obtain ⟨hd, tl, hcons⟩ : ∃ hd tl, pySplitLines payload = hd :: tl := by
    rcases hsplit : pySplitLines payload with _ | ⟨hd, tl⟩
    · exact absurd hsplit (pySplitLines_ne_nil payload)
    · exact ⟨hd, tl, rfl⟩
  rw [parsePowerTableE, hcons]
  rw [show pyNth (hd :: tl) 0 = .ok hd from rfl, except_bind_ok]
  obtain ⟨ct, hct⟩ := cumsum_zero_cons (colMatches (pyRstrip hd))
  rw [hct]
  show ((List.range (0 :: ct : List Nat).length).mapM (getcell (0 :: ct) hd)
      >>= fun headers => processRows (0 :: ct) headers (hd :: tl).tail)
    = Except.error ()
  cases hmapM : (List.range (0 :: ct : List Nat).length).mapM
      (getcell (0 :: ct) hd) with
  | error e => rfl
  | ok hs =>
    rw [except_bind_ok, List.tail_cons,
      processRows_error_of_mem ct hs tl (by rw [hcons] at h; exact h)]

/-- C10, witness: the two-line payload `"H\n"`, whose second line is
empty. -/
theorem empty_line_parse_error_witness :
    ([] ∈ (pySplitLines "H\n".data).tail) ∧
      parsePowerTable "H\n".data = .error "H\n".data :=
  ⟨by decide, empty_line_parse_error "H\n".data (by decide)⟩

/-- C9, witness: the four behaviours at concrete loop states, including
a timeout at counter 6 even though the very next read would have
delivered the terminator. -/
theorem idle_counter_behaviour_witness :
    readLoop ['z'] [.data ['a']] [] 0 = readLoop ['z'] [] ['a'] 0
      ∧ readLoop ['z'] [.idle] [] 0 = readLoop ['z'] [] [] 1
      ∧ readLoop ['z'] [.idle, .data ['z']] [] 6 = .error .readTimeout
      ∧ readLoop ['z'] [.idle] ['z'] 3 = .ok ['z'] :=
  ⟨(idle_counter_behaviour ['z'] [] ['a'] [] [] 0).1 (by decide) (by decide),
   (idle_counter_behaviour ['z'] [] [] [] [] 0).2.1 (by decide) (by decide),
   (idle_counter_behaviour ['z'] [] [] [.data ['z']] [.idle, .data ['z']]
      6).2.2.1 (by decide) (by decide),
   (idle_counter_behaviour ['z'] ['z'] [] [] [.idle] 3).2.2.2 (by decide)⟩

end Pylontech
